import Mathlib

/-!
# Planicorn task board: a shallow embedding of the lane/rank engine

This file embeds, in Lean, the parts of the Planicorn repository that the
ordering / completion / ownership / fan-out / client-reconciliation claims
are about:

* the Mongoose `Task` schema and its `pre('save')` hook
  (`backend/src/models/Task.js`, as included in `Task.test.js`);
* the task controllers `getTasks`, `createTask`, `updateTask`,
  `deleteTask`, `updateTaskStatus` (`backend/src/controllers/taskController.js`);
* the validation middleware `validateTaskOwnership`, `validateTaskQuery`
  (`backend/src/middleware/validation.js`) and the route wiring
  (`backend/src/routes/tasks.js`);
* the Socket.IO fan-out `handleConnection` / `emitTaskEvent`
  (`backend/src/socket/socketHandlers.js`);
* the frontend `taskService` debounce/network layer
  (`frontend/src/services/taskService.js`) and the `Dashboard`
  drag-and-drop handler (`frontend/src/components/Dashboard.jsx`).

The MongoDB store is modelled as a `List Task`; object ids, user ids and
timestamps are natural numbers.  Fallible request handlers return
`Except AppErr`, mirroring the `AppError(message, statusCode, code)`
class of `backend/src/middleware/errorHandler.js`.
-/

namespace Planicorn

/-- The three lanes of the board (`status` enum of the Task schema). -/
inductive Status where
  | todo
  | inprogress
  | done
deriving DecidableEq, Repr

/-- A task document, fields as in the Mongoose `taskSchema`
(`title`, `description`, `status`, `userId`, `position`, `completedAt`,
plus the `timestamps: true` pair).  `_id` is modelled as a `Nat`. -/
structure Task where
  id : Nat
  userId : Nat
  title : String
  description : String
  status : Status
  position : Nat
  completedAt : Option Nat
  createdAt : Nat
  updatedAt : Nat
deriving DecidableEq, Repr

/-- The `AppError(message, statusCode, code)` class from `errorHandler.js`. -/
structure AppErr where
  message : String
  statusCode : Nat
  code : String
deriving DecidableEq, Repr

/-- The Mongoose `pre('save')` hook of the Task schema:
if the `status` path is modified, a task entering `done` with no
`completedAt` gets stamped `now`, and a task whose status is not `done`
gets `completedAt` cleared; otherwise `completedAt` is untouched. -/
def preSaveHook (statusModified : Bool) (status : Status)
    (completedAt : Option Nat) (now : Nat) : Option Nat :=
  if statusModified then
    if status = Status.done then
      match completedAt with
      | none => some now
      | some t => some t
    else none
  else completedAt

/-- Saving an existing document `t` whose pre-update image was `old`:
Mongoose marks `status` modified exactly when the assigned value differs
from the stored one, then the `pre('save')` hook runs and `updatedAt` is
refreshed by `timestamps: true`.  Both `updateTask` and `updateTaskStatus`
persist through this path.  The request bodies they destructure
(`{title, description, status, position}`) have no `completedAt` field,
so the hook always sees the stored `completedAt`. -/
def saveTask (old t : Task) (now : Nat) : Task :=
  { t with
    completedAt := preSaveHook (decide (t.status ≠ old.status)) t.status t.completedAt now
    updatedAt := now }

/-- The tasks of one owner in one lane (the query `{userId, status}`). -/
def laneTasks (db : List Task) (userId : Nat) (status : Status) : List Task :=
  db.filter fun t => t.userId = userId ∧ t.status = status

/-- One step of taking the running maximum of `position` over a list. -/
def maxPosStep (acc : Option Nat) (t : Task) : Option Nat :=
  match acc with
  | none => some t.position
  | some m => some (Nat.max m t.position)

/-- The query `findOne` sorted by `position` descending on `{userId, status}`:
the maximum `position` among the owner's tasks in the lane, when any exist. -/
def lastPosition (db : List Task) (userId : Nat) (status : Status) : Option Nat :=
  (laneTasks db userId status).foldl maxPosStep none

/-- The `createTask` controller (`taskController.js`): destructures
`{title, description, status = 'todo', position}`; when `position` is
omitted it becomes one past the lane's maximum (`0` on an empty lane);
the new document is saved (a fresh document has its explicitly-assigned
`status` marked modified, so the hook runs with `statusModified = true`)
and appended to the store.  Returns the created task and the new store. -/
def createTask (db : List Task) (userId : Nat) (title description : String)
    (status : Status) (position : Option Nat) (freshId now : Nat) :
    Task × List Task :=
  let taskPosition : Nat :=
    match position with
    | some p => p
    | none =>
      match lastPosition db userId status with
      | some m => m + 1
      | none => 0
  let t : Task :=
    { id := freshId
      userId := userId
      title := title
      description := description
      status := status
      position := taskPosition
      completedAt := preSaveHook true status none now
      createdAt := now
      updatedAt := now }
  (t, db ++ [t])

/-- Creating one task per listed title, in order, with no explicit
position — the "create N tasks in the same lane" scenario.  Returns the
created tasks in creation order together with the final store. -/
def createMany (db : List Task) (userId : Nat) (titles : List String)
    (status : Status) (nextId now : Nat) : List Task × List Task :=
  match titles with
  | [] => ([], db)
  | title :: rest =>
    let p := createTask db userId title "" status none nextId now
    let q := createMany p.2 userId rest status (nextId + 1) now
    (p.1 :: q.1, q.2)

/-- The `AppError` raised by `validateTaskOwnership` when no task with the
requested id belongs to the caller. -/
def taskNotFoundErr : AppErr :=
  { message := "Task not found or access denied"
    statusCode := 404
    code := "TASK_NOT_FOUND" }

/-- The 400 response produced by `handleValidationErrors` when
express-validator reports errors. -/
def validationFailedErr : AppErr :=
  { message := "Validation failed"
    statusCode := 400
    code := "VALIDATION_ERROR" }

/-- The `validateTaskOwnership` middleware (`middleware/validation.js`):
`Task.findOne({_id: id, userId})`; when nothing matches, the request fails
with the 404 `TASK_NOT_FOUND` error; otherwise the task is attached to the
request.  (The ObjectId-format guard cannot fire in the model, where every
`Nat` is a well-formed id.) -/
def validateTaskOwnership (db : List Task) (id userId : Nat) :
    Except AppErr Task :=
  match db.find? (fun t => t.id == id && t.userId == userId) with
  | some t => Except.ok t
  | none => Except.error taskNotFoundErr

/-- express-validator `isLength({min: 1, max: 200})` on `title`. -/
def validTitle (s : String) : Bool :=
  1 ≤ s.length && s.length ≤ 200

/-- express-validator `isLength({max: 1000})` on `description`. -/
def validDescription (s : String) : Bool :=
  s.length ≤ 1000

/-- The `PUT /tasks/:id` request body: the fields `updateTask` destructures
(`{title, description, status, position}`), each optional.  There is no
`completedAt` field — the controller never reads one. -/
structure UpdatePatch where
  title : Option String
  description : Option String
  status : Option Status
  position : Option Nat
deriving DecidableEq, Repr

/-- The `validateUpdateTask` chain (`middleware/validation.js`): optional bounds
checks on `title` and `description`; `status` and `position` are
well-formed by the model's types. -/
def validateUpdateTask (p : UpdatePatch) : Bool :=
  (match p.title with
   | none => true
   | some s => validTitle s) &&
  (match p.description with
   | none => true
   | some s => validDescription s)

/-- The field assignments of `updateTask`: each field present in the body
overwrites the stored one (`if x !== undefined) task.x = x`). -/
def applyPatch (t : Task) (p : UpdatePatch) : Task :=
  { t with
    title := p.title.getD t.title
    description := p.description.getD t.description
    status := p.status.getD t.status
    position := p.position.getD t.position }

/-- Saving one document into the store: MongoDB writes
back the document with the saved task's `_id`. -/
def persist (db : List Task) (t : Task) : List Task :=
  db.map fun u => if u.id = t.id then t else u

/-- The `PUT /tasks/:id` chain (`routes/tasks.js`):
`validateTaskOwnership` runs first, then `validateUpdateTask` +
`handleValidationErrors`, then the `updateTask` controller applies the
patch and saves (running the `pre('save')` hook). -/
def updateTask (db : List Task) (userId id : Nat) (patch : UpdatePatch)
    (now : Nat) : Except AppErr (Task × List Task) :=
  match validateTaskOwnership db id userId with
  | Except.error e => Except.error e
  | Except.ok task =>
    if validateUpdateTask patch then
      let t := saveTask task (applyPatch task patch) now
      Except.ok (t, persist db t)
    else Except.error validationFailedErr

/-- The `PATCH /tasks/:id/status` request body: `{status, position?}` —
exactly what `validateUpdateTaskStatus` admits and `updateTaskStatus`
destructures. -/
structure StatusBody where
  status : Status
  position : Option Nat
deriving DecidableEq, Repr

/-- The body the frontend `taskService.updateTaskStatus` sends:
`api.patch(url, { status })` — only the lane, never a position. -/
def clientStatusRequest (status : Status) : StatusBody :=
  { status := status, position := none }

/-- The `PATCH /tasks/:id/status` chain: ownership check, then the
`updateTaskStatus` controller sets `status`, sets `position` only when the
body carries one, and saves (running the `pre('save')` hook). -/
def updateTaskStatus (db : List Task) (userId id : Nat) (body : StatusBody)
    (now : Nat) : Except AppErr (Task × List Task) :=
  match validateTaskOwnership db id userId with
  | Except.error e => Except.error e
  | Except.ok task =>
    let t1 := { task with
                status := body.status
                position := body.position.getD task.position }
    let t := saveTask task t1 now
    Except.ok (t, persist db t)

/-- The `DELETE /tasks/:id` chain: ownership check, then
`Task.findByIdAndDelete` removes the document; the response returns the
deleted record. -/
def deleteTask (db : List Task) (userId id : Nat) :
    Except AppErr (Task × List Task) :=
  match validateTaskOwnership db id userId with
  | Except.error e => Except.error e
  | Except.ok task => Except.ok (task, db.filter fun u => u.id ≠ task.id)

/-- MongoDB sorts the `status` string ascending:
`'done' < 'inprogress' < 'todo'` lexicographically. -/
def statusSortKey : Status → Nat
  | Status.done => 0
  | Status.inprogress => 1
  | Status.todo => 2

/-- The comparator of `getTasks`'s
`.sort({status: 1, position: 1, createdAt: -1})`. -/
def taskBefore (a b : Task) : Bool :=
  if statusSortKey a.status ≠ statusSortKey b.status then
    statusSortKey a.status < statusSortKey b.status
  else if a.position ≠ b.position then
    a.position < b.position
  else
    b.createdAt ≤ a.createdAt

/-- Insertion step of the sort used to model MongoDB's ordered query. -/
def insertTask (a : Task) : List Task → List Task
  | [] => [a]
  | b :: l => if taskBefore a b then a :: b :: l else b :: insertTask a l

/-- Stable sort by `(status asc, position asc, createdAt desc)`. -/
def sortTasks : List Task → List Task
  | [] => []
  | a :: l => insertTask a (sortTasks l)

/-- The `validateTaskQuery` chain (`middleware/validation.js`): `page` optional
`isInt({min: 1})`, `limit` optional `isInt({min: 1, max: 100})`.  The
`status` parameter is typed in the model, so its `isIn` check always
passes. -/
def validateTaskQuery (page limit : Option Nat) : Bool :=
  (match page with
   | none => true
   | some p => 1 ≤ p) &&
  (match limit with
   | none => true
   | some l => 1 ≤ l && l ≤ 100)

/-- The `getTasks` controller body: filter by owner (and lane when given),
sort, then `skip((page-1)*limit).limit(limit)` with defaults
`page = 1`, `limit = 50`; also returns the total count. -/
def getTasks (db : List Task) (userId : Nat) (status : Option Status)
    (page limit : Option Nat) : List Task × Nat :=
  let query := db.filter fun t =>
    t.userId == userId &&
      (match status with
       | none => true
       | some s => t.status == s)
  let p := page.getD 1
  let l := limit.getD 50
  (((sortTasks query).drop ((p - 1) * l)).take l, query.length)

/-- The `GET /tasks` chain: `validateTaskQuery` + `handleValidationErrors`
reject out-of-range parameters with a 400 before the controller runs. -/
def getTasksRoute (db : List Task) (userId : Nat) (status : Option Status)
    (page limit : Option Nat) : Except AppErr (List Task × Nat) :=
  if validateTaskQuery page limit then
    Except.ok (getTasks db userId status page limit)
  else Except.error validationFailedErr

/-- A live Socket.IO connection: `handleConnection` reads the
authenticated user from `socket.user` and joins the socket to the room
`user:<userId>`, so a session's room membership is exactly its
authenticated account. -/
structure Session where
  sid : Nat
  accountId : Nat
deriving DecidableEq, Repr

/-- The payload `emitTaskEvent` builds: event name, the task id (only on
`task-deleted`), the canonical task, and a timestamp. -/
structure SocketEvent where
  name : String
  taskId : Option Nat
  task : Option Task
  timestamp : Nat
deriving DecidableEq, Repr

/-- The sockets in room `user:<userId>`: by `handleConnection`, exactly
the connected sessions authenticated for that account. -/
def roomSessions (sessions : List Session) (userId : Nat) : List Nat :=
  (sessions.filter fun s => s.accountId = userId).map Session.sid

/-- The `emitTaskEvent` helper (`socketHandlers.js`): `io.to(room)` then
`emit` per event type; an unknown type only logs a warning and emits
nothing.  The result is the list of (socket id, delivered event) pairs. -/
def emitTaskEvent (sessions : List Session) (userId : Nat)
    (eventType : String) (taskData : Task) (now : Nat) :
    List (Nat × SocketEvent) :=
  let room := roomSessions sessions userId
  if eventType = "task-created" then
    room.map fun sid =>
      (sid, { name := "task-created", taskId := none
              task := some taskData, timestamp := now })
  else if eventType = "task-updated" then
    room.map fun sid =>
      (sid, { name := "task-updated", taskId := none
              task := some taskData, timestamp := now })
  else if eventType = "task-deleted" then
    room.map fun sid =>
      (sid, { name := "task-deleted", taskId := some taskData.id
              task := some taskData, timestamp := now })
  else if eventType = "task-status-updated" then
    room.map fun sid =>
      (sid, { name := "task-status-updated", taskId := none
              task := some taskData, timestamp := now })
  else []

/-- Outcome of the awaited `taskService.updateTaskStatus` call inside
`handleTaskDrop`: the promise either resolves with the canonical task or
rejects. -/
inductive NetResult where
  | ok (task : Task)
  | fail (msg : String)
deriving DecidableEq, Repr

/-- What one run of `Dashboard.handleTaskDrop` leaves behind: the `tasks`
state, how many network mutations were issued, and how many error alerts
were shown. -/
structure DropOutcome where
  tasks : List Task
  networkCalls : Nat
  errorsShown : Nat
deriving DecidableEq, Repr

/-- The optimistic record `handleTaskDrop` builds: new status, fresh
`updatedAt`, `completedAt` stamped when moving to `done`, cleared when
moving away from `done` while set, otherwise left alone. -/
def optimisticUpdate (t : Task) (newStatus : Status) (now : Nat) : Task :=
  { t with
    status := newStatus
    updatedAt := now
    completedAt :=
      if newStatus = Status.done then some now
      else if t.completedAt ≠ none then none
      else t.completedAt }

/-- The `Dashboard.handleTaskDrop` handler: find the task; bail out if missing or if
the lane is unchanged; snapshot `originalTasks`; apply the optimistic
update; await the (debounced) status call; on rejection restore the
snapshot and `alert` exactly once.  No retry is attempted. -/
def handleTaskDrop (tasks : List Task) (taskId : Nat) (newStatus : Status)
    (now : Nat) (net : NetResult) : DropOutcome :=
  match tasks.find? (fun t => t.id == taskId) with
  | none => { tasks := tasks, networkCalls := 0, errorsShown := 0 }
  | some taskToMove =>
    if taskToMove.status = newStatus then
      { tasks := tasks, networkCalls := 0, errorsShown := 0 }
    else
      let originalTasks := tasks
      let updatedTask := optimisticUpdate taskToMove newStatus now
      let optimistic := tasks.map fun t =>
        if t.id = taskId then updatedTask else t
      match net with
      | NetResult.ok _ =>
        { tasks := optimistic, networkCalls := 1, errorsShown := 0 }
      | NetResult.fail _ =>
        { tasks := originalTasks, networkCalls := 1, errorsShown := 1 }

/-- The observable state of one `debounce()` promise: `setTimeout`'s
callback is the only code that ever resolves or rejects it, so a promise
whose timer was cleared stays `pending` forever. -/
inductive PromiseState where
  | pending
  | resolved
  | rejected
deriving DecidableEq, Repr

/-- The state of the `debounce` utility for one key (one task id):
the `debounceMap` entry (index of the call whose timeout is scheduled),
the promise returned by each `debounce()` call in call order, and the
request bodies actually sent over the network. -/
structure DebounceState where
  timer : Option Nat
  promises : List PromiseState
  sent : List Status
deriving DecidableEq, Repr

/-- One `debounce(key, func, delay)` call: `clearTimeout` on the key's
existing timer (orphaning that call's still-pending promise), create a new
pending promise, and store the new timeout in `debounceMap`. -/
def debounceCall (st : DebounceState) : DebounceState :=
  { st with
    timer := some st.promises.length
    promises := st.promises ++ [PromiseState.pending] }

/-- The scheduled timeout firing after the burst: run `func` (the PATCH
with the registered call's status), settle that call's promise, and delete
the `debounceMap` entry.  `payloads` gives each call's requested status. -/
def debounceFire (payloads : List Status) (netOk : Bool)
    (st : DebounceState) : DebounceState :=
  match st.timer with
  | none => st
  | some i =>
    { timer := none
      promises := st.promises.set i
        (if netOk then PromiseState.resolved else PromiseState.rejected)
      sent := st.sent ++ [payloads.getD i Status.todo] }

/-- A burst of `debounce` calls for one key, all inside the debounce
window (each call lands before the previous timer fires), followed by the
surviving timer firing. -/
def debounceBurst (payloads : List Status) (netOk : Bool) : DebounceState :=
  debounceFire payloads netOk
    (payloads.foldl (fun st _ => debounceCall st)
      { timer := none, promises := [], sent := [] })

/-- A sample stored task (owner 0, id 1, lane `todo`), used by the
concrete witnesses below. -/
def sampleTask : Task :=
  { id := 1
    userId := 0
    title := "t"
    description := ""
    status := Status.todo
    position := 0
    completedAt := none
    createdAt := 0
    updatedAt := 0 }

/-- The record `sampleTask` becomes after a successful move to `done` at time 7. -/
def sampleDoneTask : Task :=
  { sampleTask with
    status := Status.done
    completedAt := some 7
    updatedAt := 7 }

-- Basic facts about the max-position fold behind `lastPosition`.

theorem foldl_maxPosStep_some_le (l : List Task) : ∀ (k m : Nat),
    l.foldl maxPosStep (some k) = some m → k ≤ m := by
  induction l with
  | nil =>
    intro k m h
    simp at h
    omega
  | cons b l ih =>
    intro k m h
    simp only [List.foldl_cons, maxPosStep] at h
    exact le_trans (Nat.le_max_left k b.position) (ih _ _ h)

theorem foldl_maxPosStep_le (l : List Task) : ∀ (acc : Option Nat) (m : Nat),
    l.foldl maxPosStep acc = some m → ∀ t ∈ l, t.position ≤ m := by
  induction l with
  | nil =>
    intro acc m _ t ht
    cases ht
  | cons a l ih =>
    intro acc m h t ht
    simp only [List.foldl_cons] at h
    rw [List.mem_cons] at ht
    rcases ht with ht | ht
    · subst ht
      cases acc with
      | none => exact foldl_maxPosStep_some_le l _ _ h
      | some k =>
        simp only [maxPosStep] at h
        exact le_trans (Nat.le_max_right k t.position)
          (foldl_maxPosStep_some_le l _ _ h)
    · exact ih _ m h t ht

theorem lastPosition_le (db : List Task) (userId : Nat) (status : Status)
    (m : Nat) (h : lastPosition db userId status = some m) :
    ∀ t ∈ laneTasks db userId status, t.position ≤ m :=
  foldl_maxPosStep_le _ _ _ h

theorem foldl_maxPosStep_ne_none (l : List Task) : ∀ (k : Nat),
    l.foldl maxPosStep (some k) ≠ none := by
  induction l with
  | nil =>
    intro k hk
    simp at hk
  | cons b l ih =>
    intro k hk
    simp only [List.foldl_cons, maxPosStep] at hk
    exact ih _ hk

theorem lastPosition_none_iff (db : List Task) (userId : Nat) (status : Status) :
    lastPosition db userId status = none ↔ laneTasks db userId status = [] := by
  unfold lastPosition
  constructor
  · intro h
    cases hl : laneTasks db userId status with
    | nil => rfl
    | cons a l =>
      rw [hl] at h
      simp only [List.foldl_cons, maxPosStep] at h
      exact absurd h (foldl_maxPosStep_ne_none l a.position)
  · intro h
    rw [h]
    rfl

theorem foldl_maxPosStep_attained (l : List Task) : ∀ (acc : Option Nat) (m : Nat),
    l.foldl maxPosStep acc = some m → acc = some m ∨ ∃ t ∈ l, t.position = m := by
  induction l with
  | nil =>
    intro acc m h
    simp at h
    left
    rw [h]
  | cons a l ih =>
    intro acc m h
    simp only [List.foldl_cons] at h
    rcases ih _ _ h with hacc | ⟨t, ht, hm⟩
    · cases acc with
      | none =>
        simp only [maxPosStep] at hacc
        right
        exact ⟨a, List.mem_cons_self a l, by injection hacc⟩
      | some k =>
        simp only [maxPosStep] at hacc
        have hk : Nat.max k a.position = m := by injection hacc
        rcases Nat.le_total k a.position with h1 | h1
        · right
          exact ⟨a, List.mem_cons_self a l, (Nat.max_eq_right h1).symm.trans hk⟩
        · left
          exact congrArg some ((Nat.max_eq_left h1).symm.trans hk)
    · right
      exact ⟨t, List.mem_cons_of_mem a ht, hm⟩

theorem lastPosition_attained (db : List Task) (userId : Nat) (status : Status)
    (m : Nat) (h : lastPosition db userId status = some m) :
    ∃ t ∈ laneTasks db userId status, t.position = m := by
  rcases foldl_maxPosStep_attained _ _ _ h with hacc | h
  · cases hacc
  · exact h

theorem lastPosition_append (db : List Task) (t : Task) (userId : Nat)
    (status : Status) (hu : t.userId = userId) (hs : t.status = status) :
    lastPosition (db ++ [t]) userId status =
      some (match lastPosition db userId status with
            | none => t.position
            | some m => Nat.max m t.position) := by
  unfold lastPosition laneTasks
  rw [List.filter_append, List.foldl_append]
  have hfilter : List.filter
      (fun u => decide (u.userId = userId ∧ u.status = status)) [t] = [t] := by
    simp [hu, hs]
  rw [hfilter]
  cases (List.filter
      (fun u => decide (u.userId = userId ∧ u.status = status)) db).foldl
      maxPosStep none with
  | none => rfl
  | some m => rfl

theorem createTask_userId (db : List Task) (userId : Nat)
    (title description : String) (status : Status) (position : Option Nat)
    (freshId now : Nat) :
    (createTask db userId title description status position freshId now).1.userId
      = userId := rfl

/-- The position `createTask` assigns when the body has no `position`. -/
theorem createTask_default_position (db : List Task) (userId : Nat)
    (title description : String) (status : Status) (freshId now : Nat) :
    (createTask db userId title description status none freshId now).1.position
      = (match lastPosition db userId status with
         | none => 0
         | some m => m + 1) := by
  unfold createTask
  cases lastPosition db userId status with
  | none => rfl
  | some m => rfl

theorem createTask_db (db : List Task) (userId : Nat)
    (title description : String) (status : Status) (position : Option Nat)
    (freshId now : Nat) :
    (createTask db userId title description status position freshId now).2
      = db ++ [(createTask db userId title description status position freshId now).1] :=
  rfl

/-- Auxiliary invariant for the create-N-tasks run: if the owner's lane
currently has maximum position `n - 1` (no tasks at all when `n = 0`),
the created tasks get positions `n, n+1, ...`. -/
theorem createMany_positions (titles : List String) :
    ∀ (db : List Task) (userId : Nat) (status : Status) (nextId now n : Nat),
    lastPosition db userId status = (if n = 0 then none else some (n - 1)) →
    (createMany db userId titles status nextId now).1.map Task.position
      = List.range' n titles.length := by
  induction titles with
  | nil =>
    intro db userId status nextId now n _
    simp [createMany, List.range']
  | cons title rest ih =>
    intro db userId status nextId now n h
    have hu : (createTask db userId title "" status none nextId now).1.userId = userId := rfl
    have hs : (createTask db userId title "" status none nextId now).1.status = status := rfl
    have hpos : (createTask db userId title "" status none nextId now).1.position = n := by
      rw [createTask_default_position, h]
      cases n with
      | zero => rfl
      | succ k => simp
    have hlast : lastPosition (createTask db userId title "" status none nextId now).2
        userId status = some n := by
      rw [createTask_db, lastPosition_append db _ userId status hu hs, hpos, h]
      cases n with
      | zero => rfl
      | succ k =>
        simp only [Nat.succ_ne_zero, if_false, Nat.succ_sub_one]
        exact congrArg some (Nat.max_eq_right (Nat.le_succ k))
    have hstep := ih (createTask db userId title "" status none nextId now).2
      userId status (nextId + 1) now (n + 1) (by simpa using hlast)
    show ((createTask db userId title "" status none nextId now).1.position ::
        (createMany _ userId rest status (nextId + 1) now).1.map Task.position)
      = List.range' n (rest.length + 1)
    rw [hpos, hstep, List.range'_succ]

/-- C1: with no explicit rank, `createTask` places the new task one past
the owner's current maximum rank in the target lane (the maximum is
attained by some existing task and every lane member is below the new
rank), or at rank 0 when the lane is empty; and creating N tasks into an
initially empty lane with no explicit rank yields ranks `0..N-1` in
creation order. -/
theorem create_rank_assignment :
    (∀ (db : List Task) (userId : Nat) (title description : String)
        (status : Status) (freshId now : Nat),
      (laneTasks db userId status = [] →
        (createTask db userId title description status none freshId now).1.position = 0)
      ∧ (laneTasks db userId status ≠ [] →
        ∃ u ∈ laneTasks db userId status,
          (∀ v ∈ laneTasks db userId status, v.position ≤ u.position)
          ∧ (createTask db userId title description status none freshId now).1.position
              = u.position + 1))
    ∧ (∀ (db : List Task) (userId : Nat) (titles : List String)
        (status : Status) (nextId now : Nat),
      laneTasks db userId status = [] →
      (createMany db userId titles status nextId now).1.map Task.position
        = List.range titles.length) := by
  constructor
  · intro db userId title description status freshId now
    constructor
    · intro hempty
      rw [createTask_default_position,
        (lastPosition_none_iff db userId status).mpr hempty]
    · intro hne
      cases hlast : lastPosition db userId status with
      | none => exact absurd ((lastPosition_none_iff db userId status).mp hlast) hne
      | some m =>
        rcases lastPosition_attained db userId status m hlast with ⟨u, hu, hum⟩
        refine ⟨u, hu, ?_, ?_⟩
        · intro v hv
          rw [hum]
          exact lastPosition_le db userId status m hlast v hv
        · rw [createTask_default_position, hlast, hum]
  · intro db userId titles status nextId now hempty
    have h0 : lastPosition db userId status = (if (0 : Nat) = 0 then none else some (0 - 1)) := by
      simpa using (lastPosition_none_iff db userId status).mpr hempty
    rw [createMany_positions titles db userId status nextId now 0 h0,
      List.range_eq_range']

/-- Witness for C1: three tasks created into an empty `todo` lane get
ranks `[0, 1, 2]`, and a fourth created while rank 2 is the lane maximum
gets rank 3. -/
theorem create_rank_assignment_witness :
    (laneTasks ([] : List Task) 0 Status.todo = []
      ∧ (createMany [] 0 ["a", "b", "c"] Status.todo 1 5).1.map Task.position
          = List.range 3)
    ∧ (laneTasks (createMany [] 0 ["a", "b", "c"] Status.todo 1 5).2 0 Status.todo ≠ []
      ∧ ∃ u ∈ laneTasks (createMany [] 0 ["a", "b", "c"] Status.todo 1 5).2 0 Status.todo,
          (∀ v ∈ laneTasks (createMany [] 0 ["a", "b", "c"] Status.todo 1 5).2 0 Status.todo,
            v.position ≤ u.position)
          ∧ (createTask (createMany [] 0 ["a", "b", "c"] Status.todo 1 5).2
              0 "d" "" Status.todo none 4 6).1.position = u.position + 1) := by
  constructor
  · exact ⟨rfl, create_rank_assignment.2 [] 0 ["a", "b", "c"] Status.todo 1 5 rfl⟩
  · refine ⟨by decide, ?_⟩
    exact (create_rank_assignment.1 (createMany [] 0 ["a", "b", "c"] Status.todo 1 5).2
      0 "d" "" Status.todo 4 6).2 (by decide)

/-- Case analysis of the `pre('save')` completion-timestamp logic for a
save through `saveTask`, assuming the stored document satisfied the
`completedAt`-iff-`done` invariant and the saved document carries the
stored `completedAt` (as both controllers do). -/
theorem saveTask_completedAt_cases (old t : Task) (now : Nat)
    (hc : t.completedAt = old.completedAt)
    (hinv : old.completedAt ≠ none ↔ old.status = Status.done) :
    ((saveTask old t now).completedAt ≠ none
        ↔ (saveTask old t now).status = Status.done)
    ∧ (old.status ≠ Status.done → t.status = Status.done →
        (saveTask old t now).completedAt = some now)
    ∧ (old.status = Status.done → t.status ≠ Status.done →
        (saveTask old t now).completedAt = none)
    ∧ (t.status = old.status →
        (saveTask old t now).completedAt = old.completedAt) := by
  have hstat : (saveTask old t now).status = t.status := rfl
  have hca : (saveTask old t now).completedAt
      = preSaveHook (decide (t.status ≠ old.status)) t.status old.completedAt now := by
    rw [← hc]
    rfl
  by_cases heq : t.status = old.status
  · have hmod : decide (t.status ≠ old.status) = false := by
      simp [heq]
    rw [hmod] at hca
    simp only [preSaveHook, Bool.false_eq_true, if_false] at hca
    refine ⟨?_, ?_, ?_, ?_⟩
    · rw [hca, hstat, heq]
      exact hinv
    · intro h1 h2
      exact absurd (heq.symm.trans h2) h1
    · intro h1 h2
      exact absurd (heq.trans h1) h2
    · intro _
      exact hca
  · have hmod : decide (t.status ≠ old.status) = true := by
      simp [heq]
    rw [hmod] at hca
    by_cases hd : t.status = Status.done
    · have hold : old.status ≠ Status.done := fun h => heq (hd.trans h.symm)
      have holdc : old.completedAt = none := by
        by_cases hoc : old.completedAt = none
        · exact hoc
        · exact absurd (hinv.mp hoc) hold
      rw [holdc] at hca
      simp only [preSaveHook, if_pos hd, if_true] at hca
      refine ⟨?_, ?_, ?_, ?_⟩
      · constructor
        · intro _
          rw [hstat]
          exact hd
        · intro _
          rw [hca]
          simp
      · intro _ _
        exact hca
      · intro h1 _
        exact absurd h1 hold
      · intro h1
        exact absurd h1 heq
    · simp only [preSaveHook, if_neg hd, if_true] at hca
      refine ⟨?_, ?_, ?_, ?_⟩
      · constructor
        · intro hne
          exact absurd hca hne
        · intro hdone
          rw [hstat] at hdone
          exact absurd hdone hd
      · intro _ h2
        exact absurd h2 hd
      · intro _ _
        exact hca
      · intro h1
        exact absurd h1 heq

/-- C2: after every successful write through `PATCH /tasks/:id/status` or
`PUT /tasks/:id` of a task whose stored state satisfied the invariant,
`completedAt` is non-null iff the saved lane is `done`; a transition into
`done` stamps `completedAt := now`; a transition out of `done` clears it;
a write that does not change the lane leaves it untouched.  The request
body types (`StatusBody`, `UpdatePatch`) carry no `completedAt` field,
mirroring the controllers, which never read one from the client. -/
theorem completedAt_iff_done
    (db : List Task) (userId id : Nat) (body : StatusBody)
    (patch : UpdatePatch) (now : Nat) (task : Task)
    (outS outU : Task × List Task)
    (hown : validateTaskOwnership db id userId = Except.ok task)
    (hinv : task.completedAt ≠ none ↔ task.status = Status.done)
    (hS : updateTaskStatus db userId id body now = Except.ok outS)
    (hU : updateTask db userId id patch now = Except.ok outU) :
    ((outS.1.completedAt ≠ none ↔ outS.1.status = Status.done)
      ∧ (task.status ≠ Status.done → body.status = Status.done →
          outS.1.completedAt = some now)
      ∧ (task.status = Status.done → body.status ≠ Status.done →
          outS.1.completedAt = none)
      ∧ (body.status = task.status → outS.1.completedAt = task.completedAt))
    ∧ ((outU.1.completedAt ≠ none ↔ outU.1.status = Status.done)
      ∧ (task.status ≠ Status.done → patch.status = some Status.done →
          outU.1.completedAt = some now)
      ∧ (∀ s, task.status = Status.done → patch.status = some s →
          s ≠ Status.done → outU.1.completedAt = none)
      ∧ (patch.status.getD task.status = task.status →
          outU.1.completedAt = task.completedAt)) := by
  have hS1 : outS.1 = saveTask task
      { task with
        status := body.status
        position := body.position.getD task.position } now := by
    unfold updateTaskStatus at hS
    rw [hown] at hS
    injection hS with h2
    rw [← h2]
  have hvU : validateUpdateTask patch = true := by
    by_contra hv
    unfold updateTask at hU
    rw [hown] at hU
    simp only [if_neg hv] at hU
    exact Except.noConfusion hU
  have hU1 : outU.1 = saveTask task (applyPatch task patch) now := by
    unfold updateTask at hU
    rw [hown] at hU
    simp only [if_pos hvU] at hU
    injection hU with h2
    rw [← h2]
  constructor
  · have hcase := saveTask_completedAt_cases task
      { task with
        status := body.status
        position := body.position.getD task.position } now rfl hinv
    rw [← hS1] at hcase
    exact hcase
  · have hcase := saveTask_completedAt_cases task (applyPatch task patch) now rfl hinv
    rw [← hU1] at hcase
    refine ⟨hcase.1, ?_, ?_, ?_⟩
    · intro h1 h2
      refine hcase.2.1 h1 ?_
      show patch.status.getD task.status = Status.done
      rw [h2]
      rfl
    · intro s h1 h2 h3
      refine hcase.2.2.1 h1 ?_
      show patch.status.getD task.status ≠ Status.done
      rw [h2]
      exact h3
    · intro h1
      exact hcase.2.2.2 h1

/-- Witness for C2: moving `sampleTask` (lane `todo`, `completedAt` null)
to `done` at time 7 through both write routes yields `sampleDoneTask`,
whose `completedAt` is stamped `some 7`. -/
theorem completedAt_iff_done_witness :
    (sampleDoneTask.completedAt ≠ none ↔ sampleDoneTask.status = Status.done)
    ∧ sampleDoneTask.completedAt = some 7 := by
  have h := completedAt_iff_done [sampleTask] 0 1
    { status := Status.done, position := none }
    { title := none, description := none, status := some Status.done, position := none }
    7 sampleTask (sampleDoneTask, [sampleDoneTask]) (sampleDoneTask, [sampleDoneTask])
    rfl (by decide) rfl rfl
  exact ⟨h.1.1, h.1.2.1 (by decide) rfl⟩

/-- C3: when every task carrying the requested id belongs to account A
(and at least one exists), any update, status-change or delete issued by a
different account B fails with the 404 `TASK_NOT_FOUND` error: it never
succeeds, never returns the task, and is never a 403 Forbidden. -/
theorem ownership_isolation
    (db : List Task) (A B id : Nat) (hAB : B ≠ A)
    (_hexists : ∃ t ∈ db, t.id = id)
    (howner : ∀ t ∈ db, t.id = id → t.userId = A)
    (patch : UpdatePatch) (body : StatusBody) (now : Nat) :
    validateTaskOwnership db id B = Except.error taskNotFoundErr
    ∧ updateTask db B id patch now = Except.error taskNotFoundErr
    ∧ updateTaskStatus db B id body now = Except.error taskNotFoundErr
    ∧ deleteTask db B id = Except.error taskNotFoundErr
    ∧ taskNotFoundErr.statusCode = 404
    ∧ taskNotFoundErr.statusCode ≠ 403 := by
  have hfind : db.find? (fun t => t.id == id && t.userId == B) = none := by
    rw [List.find?_eq_none]
    intro t ht
    simp only [Bool.and_eq_true, beq_iff_eq, not_and]
    intro hid hB
    exact hAB (hB.symm.trans (howner t ht hid))
  have hval : validateTaskOwnership db id B = Except.error taskNotFoundErr := by
    unfold validateTaskOwnership
    rw [hfind]
  refine ⟨hval, ?_, ?_, ?_, rfl, by decide⟩
  · unfold updateTask
    rw [hval]
  · unfold updateTaskStatus
    rw [hval]
  · unfold deleteTask
    rw [hval]

/-- Witness for C3: `sampleTask` (id 1) belongs to account 0; account 5's
update, status-change and delete against id 1 all fail with the 404. -/
theorem ownership_isolation_witness :
    ((5 : Nat) ≠ 0)
    ∧ validateTaskOwnership [sampleTask] 1 5 = Except.error taskNotFoundErr
    ∧ updateTask [sampleTask] 5 1
        { title := none, description := none, status := none, position := none } 9
        = Except.error taskNotFoundErr
    ∧ updateTaskStatus [sampleTask] 5 1 { status := Status.done, position := none } 9
        = Except.error taskNotFoundErr
    ∧ deleteTask [sampleTask] 5 1 = Except.error taskNotFoundErr := by
  have h := ownership_isolation [sampleTask] 0 5 1 (by decide)
    ⟨sampleTask, List.mem_singleton_self sampleTask, rfl⟩
    (by
      intro t ht _
      rw [List.mem_singleton] at ht
      rw [ht]
      rfl)
    { title := none, description := none, status := none, position := none }
    { status := Status.done, position := none } 9
  exact ⟨by decide, h.1, h.2.1, h.2.2.1, h.2.2.2.1⟩

/-- C5: when `handleTaskDrop` moves an existing task to a different lane
and the network call rejects, the task list is restored exactly to the
pre-move snapshot, exactly one error alert is shown, and exactly one
network call was made (no retry). -/
theorem optimistic_rollback
    (tasks : List Task) (taskId : Nat) (newStatus : Status) (now : Nat)
    (msg : String) (task : Task)
    (hfind : tasks.find? (fun t => t.id == taskId) = some task)
    (hchanged : task.status ≠ newStatus) :
    handleTaskDrop tasks taskId newStatus now (NetResult.fail msg)
      = { tasks := tasks, networkCalls := 1, errorsShown := 1 } := by
  unfold handleTaskDrop
  rw [hfind]
  simp only [if_neg hchanged]

/-- Witness for C5: a failed move of `sampleTask` from `todo` to `done`
leaves the list `[sampleTask]` unchanged with one alert and one call. -/
theorem optimistic_rollback_witness :
    handleTaskDrop [sampleTask] 1 Status.done 3 (NetResult.fail "network error")
      = { tasks := [sampleTask], networkCalls := 1, errorsShown := 1 } :=
  optimistic_rollback [sampleTask] 1 Status.done 3 "network error" sampleTask
    rfl (by decide)

/-- Saving one document never touches any other document:
`persist` keeps the store's length and keeps every record whose id
differs from the saved one, bit for bit. -/
theorem persist_frame (db : List Task) (x : Task) :
    (persist db x).length = db.length
    ∧ ∀ t ∈ db, t.id ≠ x.id → t ∈ persist db x := by
  constructor
  · unfold persist
    rw [List.length_map]
  · intro t ht hne
    unfold persist
    exact List.mem_map.mpr ⟨t, ht, if_neg hne⟩

/-- The task attached by a successful `validateTaskOwnership` carries the
requested id and the caller's account. -/
theorem validateTaskOwnership_ok (db : List Task) (id userId : Nat)
    (task : Task) (h : validateTaskOwnership db id userId = Except.ok task) :
    task.id = id ∧ task.userId = userId ∧ task ∈ db := by
  unfold validateTaskOwnership at h
  cases hfind : db.find? (fun t => t.id == id && t.userId == userId) with
  | none =>
    rw [hfind] at h
    exact Except.noConfusion h
  | some u =>
    rw [hfind] at h
    injection h with hu
    have hp := List.find?_some hfind
    have hm := List.mem_of_find?_eq_some hfind
    rw [hu] at hp hm
    simp only [Bool.and_eq_true, beq_iff_eq] at hp
    exact ⟨hp.1, hp.2, hm⟩

/-- C7: a successful `PATCH /tasks/:id/status` rewrites only the matched
task's document: the store keeps its length, and every task with a
different id — in the source lane, the destination lane, or any other —
is still present unchanged (in particular with the same rank). -/
theorem lane_isolation
    (db : List Task) (userId id : Nat) (body : StatusBody) (now : Nat)
    (out : Task × List Task)
    (hok : updateTaskStatus db userId id body now = Except.ok out) :
    out.2.length = db.length
    ∧ ∀ t ∈ db, t.id ≠ id → t ∈ out.2 := by
  cases hown : validateTaskOwnership db id userId with
  | error e =>
    unfold updateTaskStatus at hok
    rw [hown] at hok
    exact Except.noConfusion hok
  | ok task =>
    have htid : task.id = id := (validateTaskOwnership_ok db id userId task hown).1
    have hout : out.2 = persist db (saveTask task
        { task with
          status := body.status
          position := body.position.getD task.position } now) := by
      unfold updateTaskStatus at hok
      rw [hown] at hok
      injection hok with h2
      rw [← h2]
    have hxid : (saveTask task
        { task with
          status := body.status
          position := body.position.getD task.position } now).id = id := htid
    rw [hout]
    refine ⟨(persist_frame db _).1, ?_⟩
    intro t ht hne
    refine (persist_frame db _).2 t ht ?_
    rw [hxid]
    exact hne

/-- Witness for C7: moving task 1 of owner 0 to `done` in a two-task
store keeps the untouched task 2 present with its rank. -/
theorem lane_isolation_witness :
    ∃ out, updateTaskStatus
        [sampleTask, { sampleTask with id := 2, position := 1 }] 0 1
        { status := Status.done, position := none } 7 = Except.ok out
      ∧ out.2.length = 2
      ∧ ({ sampleTask with id := 2, position := 1 } : Task) ∈ out.2 := by
  refine ⟨(sampleDoneTask, [sampleDoneTask, { sampleTask with id := 2, position := 1 }]),
    rfl, ?_⟩
  have h := lane_isolation [sampleTask, { sampleTask with id := 2, position := 1 }]
    0 1 { status := Status.done, position := none } 7
    (sampleDoneTask, [sampleDoneTask, { sampleTask with id := 2, position := 1 }]) rfl
  exact ⟨h.1, h.2 { sampleTask with id := 2, position := 1 }
    (List.mem_cons_of_mem _ (List.mem_singleton_self _)) (by decide)⟩

/-- C9: the frontend's drag-and-drop status request carries only the new
lane (`position = none`), and the server then leaves the moved task's
rank exactly as stored: the task keeps its old lane's rank value in the
new lane. -/
theorem client_move_keeps_rank
    (db : List Task) (userId id : Nat) (s : Status) (now : Nat)
    (task : Task) (out : Task × List Task)
    (hown : validateTaskOwnership db id userId = Except.ok task)
    (hok : updateTaskStatus db userId id (clientStatusRequest s) now
        = Except.ok out) :
    (clientStatusRequest s).position = none
    ∧ out.1.position = task.position
    ∧ out.1.status = s := by
  have h1 : out.1 = saveTask task
      { task with status := s, position := task.position } now := by
    unfold updateTaskStatus at hok
    rw [hown] at hok
    injection hok with h2
    rw [← h2]
    rfl
  exact ⟨rfl, by rw [h1]; rfl, by rw [h1]; rfl⟩

/-- Witness for C9: dragging `sampleTask` to `done` through the client
request leaves its rank 0 untouched. -/
theorem client_move_keeps_rank_witness :
    (clientStatusRequest Status.done).position = none
    ∧ sampleDoneTask.position = sampleTask.position
    ∧ sampleDoneTask.status = Status.done := by
  have h := client_move_keeps_rank [sampleTask] 0 1 Status.done 7 sampleTask
    (sampleDoneTask, [sampleDoneTask]) rfl rfl
  exact ⟨h.1, h.2.1, h.2.2⟩

/-- C8 counterexample: a list request with `limit = 101` is NOT served
with a clamped page size — `validateTaskQuery` + `handleValidationErrors`
reject it with the 400 validation error before the controller runs. -/
theorem pageSize_clamp_counterexample :
    getTasksRoute [] 0 none none (some 101) = Except.error validationFailedErr
    ∧ validationFailedErr.statusCode = 400 :=
  ⟨rfl, rfl⟩

/-- C8 (amended): every successful list response returns at most 100
tasks per page (the accepted `limit` is at most 100, default 50), but a
request supplying a `pageSize` above 100 is rejected with a 400
validation error rather than served with a clamped size. -/
theorem pageSize_bound
    (db : List Task) (userId : Nat) (status : Option Status)
    (page limit : Option Nat) :
    (∀ out, getTasksRoute db userId status page limit = Except.ok out →
      out.1.length ≤ 100)
    ∧ (∀ l, limit = some l → 100 < l →
      getTasksRoute db userId status page limit
        = Except.error validationFailedErr) := by
  constructor
  · intro out hok
    unfold getTasksRoute at hok
    by_cases hv : validateTaskQuery page limit = true
    · rw [if_pos hv] at hok
      injection hok with h2
      have hlen : out.1.length ≤ limit.getD 50 := by
        rw [← h2]
        simp only [getTasks, List.length_take]
        exact Nat.min_le_left _ _
      have hlim : limit.getD 50 ≤ 100 := by
        cases hl : limit with
        | none => simp
        | some l =>
          unfold validateTaskQuery at hv
          rw [hl] at hv
          simp only [Bool.and_eq_true, decide_eq_true_eq] at hv
          simpa using hv.2.2
      omega
    · rw [if_neg hv] at hok
      exact Except.noConfusion hok
  · intro l hl hgt
    have hv : ¬ validateTaskQuery page limit = true := by
      intro hv
      unfold validateTaskQuery at hv
      rw [hl] at hv
      simp only [Bool.and_eq_true, decide_eq_true_eq] at hv
      have := hv.2.2
      omega
    unfold getTasksRoute
    rw [if_neg hv]

/-- Witness for C8: a valid request (`limit = 50`) is served with at most
100 tasks, and the same route rejects `limit = 101` with the 400. -/
theorem pageSize_bound_witness :
    getTasksRoute [sampleTask] 0 none none (some 50)
        = Except.ok ([sampleTask], 1)
    ∧ ([sampleTask] : List Task).length ≤ 100
    ∧ getTasksRoute [sampleTask] 0 none none (some 101)
        = Except.error validationFailedErr := by
  refine ⟨rfl, ?_, ?_⟩
  · exact (pageSize_bound [sampleTask] 0 none none (some 50)).1 ([sampleTask], 1) rfl
  · exact (pageSize_bound [sampleTask] 0 none none (some 101)).2 101 rfl (by decide)

/-- C4 counterexample: account 10 has two connected sessions, 1 and 2,
and session 1 issues the mutation.  The claim predicts delivery to every
session of the account except the issuer, i.e. recipients `[2]`; the code
addresses the whole room `user:10`, so the issuing session 1 receives the
event as well. -/
theorem fanout_includes_issuer_counterexample :
    ((emitTaskEvent [{ sid := 1, accountId := 10 }, { sid := 2, accountId := 10 }]
        10 "task-status-updated" sampleTask 3).map Prod.fst = [1, 2])
    ∧ ((emitTaskEvent [{ sid := 1, accountId := 10 }, { sid := 2, accountId := 10 }]
        10 "task-status-updated" sampleTask 3).map Prod.fst ≠ [2]) := by
  refine ⟨rfl, ?_⟩
  intro h
  rw [show (emitTaskEvent [{ sid := 1, accountId := 10 }, { sid := 2, accountId := 10 }]
      10 "task-status-updated" sampleTask 3).map Prod.fst = [1, 2] from rfl] at h
  exact absurd h (by decide)

/-- C4 (amended): the fan-out event for account A's mutation is delivered
to EVERY connected session authenticated for account A — including the
issuing session's own connection when it is connected — and never to a
session authenticated for a different account; each delivered event
carries the canonical post-mutation task. -/
theorem fanout_scoping
    (sessions : List Session) (A : Nat) (taskData : Task) (now : Nat)
    (ev : String)
    (hev : ev = "task-created" ∨ ev = "task-updated" ∨ ev = "task-deleted"
      ∨ ev = "task-status-updated")
    (s : Session) (hs : s ∈ sessions)
    (hsid : ∀ u ∈ sessions, u.sid = s.sid → u.accountId = s.accountId) :
    (s.sid ∈ (emitTaskEvent sessions A ev taskData now).map Prod.fst
      ↔ s.accountId = A)
    ∧ (∀ p ∈ emitTaskEvent sessions A ev taskData now,
        p.2.task = some taskData) := by
  have hred : ∃ e : SocketEvent, e.task = some taskData
      ∧ emitTaskEvent sessions A ev taskData now
          = (roomSessions sessions A).map (fun sid => (sid, e)) := by
    rcases hev with h | h | h | h <;> subst h <;> unfold emitTaskEvent
    · exact ⟨_, rfl, by rw [if_pos rfl]⟩
    · exact ⟨_, rfl, by rw [if_neg (by decide), if_pos rfl]⟩
    · exact ⟨_, rfl, by rw [if_neg (by decide), if_neg (by decide), if_pos rfl]⟩
    · exact ⟨_, rfl, by
        rw [if_neg (by decide), if_neg (by decide), if_neg (by decide), if_pos rfl]⟩
  obtain ⟨e, he, hrw⟩ := hred
  have hfst : (emitTaskEvent sessions A ev taskData now).map Prod.fst
      = roomSessions sessions A := by
    rw [hrw, List.map_map]
    exact List.map_id _
  have hpayload : ∀ p ∈ emitTaskEvent sessions A ev taskData now,
      p.2.task = some taskData := by
    intro p hp
    rw [hrw, List.mem_map] at hp
    obtain ⟨sid, _, hpeq⟩ := hp
    rw [← hpeq]
    exact he
  refine ⟨?_, hpayload⟩
  rw [hfst]
  constructor
  · intro hmem
    unfold roomSessions at hmem
    rw [List.mem_map] at hmem
    obtain ⟨u, hu, husid⟩ := hmem
    have hu2 := List.mem_filter.mp hu
    have hacc : u.accountId = A := by
      have := hu2.2
      simpa using this
    rw [← hsid u hu2.1 husid]
    exact hacc
  · intro hacc
    unfold roomSessions
    rw [List.mem_map]
    exact ⟨s, List.mem_filter.mpr ⟨hs, by simpa using hacc⟩, rfl⟩

/-- Witness for C4 (amended): with sessions 1 and 2 on account 10 and
session 3 on account 11, a `task-updated` event for account 10 reaches
session 1 (the issuer's account's session) and every delivered payload is
the canonical task. -/
theorem fanout_scoping_witness :
    ((1 : Nat) ∈ (emitTaskEvent
        [{ sid := 1, accountId := 10 }, { sid := 2, accountId := 10 },
          { sid := 3, accountId := 11 }] 10 "task-updated" sampleTask 4).map Prod.fst
      ↔ (10 : Nat) = 10)
    ∧ (∀ p ∈ emitTaskEvent
        [{ sid := 1, accountId := 10 }, { sid := 2, accountId := 10 },
          { sid := 3, accountId := 11 }] 10 "task-updated" sampleTask 4,
        p.2.task = some sampleTask) :=
  fanout_scoping
    [{ sid := 1, accountId := 10 }, { sid := 2, accountId := 10 },
      { sid := 3, accountId := 11 }] 10 sampleTask 4 "task-updated"
    (Or.inr (Or.inl rfl)) { sid := 1, accountId := 10 } (by decide) (by decide)

-- Behaviour of the debounce machine over one burst.

theorem foldl_debounceCall_promises (payloads : List Status) :
    ∀ st : DebounceState,
    (payloads.foldl (fun st _ => debounceCall st) st).promises
      = st.promises ++ List.replicate payloads.length PromiseState.pending := by
  induction payloads with
  | nil =>
    intro st
    simp
  | cons p rest ih =>
    intro st
    rw [List.foldl_cons, ih]
    unfold debounceCall
    simp [List.replicate_succ, List.append_assoc, List.replicate_succ']

theorem foldl_debounceCall_sent (payloads : List Status) :
    ∀ st : DebounceState,
    (payloads.foldl (fun st _ => debounceCall st) st).sent = st.sent := by
  induction payloads with
  | nil =>
    intro st
    rfl
  | cons p rest ih =>
    intro st
    rw [List.foldl_cons, ih]
    rfl

theorem foldl_debounceCall_timer (payloads : List Status) (h : payloads ≠ []) :
    ∀ st : DebounceState,
    (payloads.foldl (fun st _ => debounceCall st) st).timer
      = some (st.promises.length + payloads.length - 1) := by
  induction payloads with
  | nil => exact absurd rfl h
  | cons p rest ih =>
    intro st
    rw [List.foldl_cons]
    cases hr : rest with
    | nil =>
      subst hr
      show (debounceCall st).timer = _
      unfold debounceCall
      simp
    | cons q qs =>
      rw [← hr, ih (by rw [hr]; exact List.cons_ne_nil q qs)]
      simp only [debounceCall, List.length_append, List.length_cons,
        List.length_nil, Option.some.injEq]
      omega

/-- The net effect of a burst of `k ≥ 1` debounced calls for one key
followed by the surviving timer firing: the timer slot is cleared, every
promise but the last stays pending (the last resolves or rejects with the
network outcome), and exactly the last requested status is sent. -/
theorem debounceBurst_eq (payloads : List Status) (netOk : Bool)
    (h : payloads ≠ []) :
    debounceBurst payloads netOk
      = { timer := none
          promises := (List.replicate payloads.length PromiseState.pending).set
            (payloads.length - 1)
            (if netOk then PromiseState.resolved else PromiseState.rejected)
          sent := [payloads.getD (payloads.length - 1) Status.todo] } := by
  unfold debounceBurst
  have htimer := foldl_debounceCall_timer payloads h
    { timer := none, promises := [], sent := [] }
  have hprom := foldl_debounceCall_promises payloads
    { timer := none, promises := [], sent := [] }
  have hsent := foldl_debounceCall_sent payloads
    { timer := none, promises := [], sent := [] }
  unfold debounceFire
  rw [htimer]
  simp only [List.length_nil, Nat.zero_add, List.nil_append] at htimer hprom hsent ⊢
  rw [hprom, hsent]
  rfl

/-- Reading with `getD` at the last index gives `getLast`. -/
theorem getD_last (l : List Status) (d : Status) (h : l ≠ []) :
    l.getD (l.length - 1) d = l.getLast h := by
  rw [List.getLast_eq_getElem]
  have hlt : l.length - 1 < l.length := by
    cases l with
    | nil => exact absurd rfl h
    | cons a t => simp
  rw [List.getD_eq_getElem?_getD, List.getElem?_eq_getElem hlt]
  rfl

/-- C6: a burst of `k ≥ 1` debounced status changes for one task id, all
within the debounce window, sends exactly one network call, and that call
carries the last requested status of the burst. -/
theorem debounce_collapse (payloads : List Status) (netOk : Bool)
    (h : payloads ≠ []) :
    (debounceBurst payloads netOk).sent = [payloads.getLast h]
    ∧ (debounceBurst payloads netOk).sent.length = 1 := by
  rw [debounceBurst_eq payloads netOk h]
  constructor
  · show [payloads.getD (payloads.length - 1) Status.todo] = [payloads.getLast h]
    rw [getD_last payloads Status.todo h]
  · rfl

/-- Witness for C6: five rapid status changes collapse to one call
carrying the final requested lane `done`. -/
theorem debounce_collapse_witness :
    ([Status.inprogress, Status.todo, Status.done, Status.inprogress,
        Status.done] ≠ ([] : List Status))
    ∧ (debounceBurst [Status.inprogress, Status.todo, Status.done,
        Status.inprogress, Status.done] true).sent = [Status.done]
    ∧ (debounceBurst [Status.inprogress, Status.todo, Status.done,
        Status.inprogress, Status.done] true).sent.length = 1 := by
  have h := debounce_collapse [Status.inprogress, Status.todo, Status.done,
    Status.inprogress, Status.done] true (by decide)
  exact ⟨by decide, h.1, h.2⟩

/-- C10: a debounced call superseded by a later call for the same key
within the window never settles — after the burst, every promise but the
last is still pending, so its caller observes neither success nor
failure. -/
theorem superseded_never_settles (payloads : List Status) (netOk : Bool)
    (i : Nat) (hi : i + 1 < payloads.length) :
    (debounceBurst payloads netOk).promises.get? i
      = some PromiseState.pending := by
  have hne : payloads ≠ [] := by
    intro h
    rw [h] at hi
    simp at hi
  rw [debounceBurst_eq payloads netOk hne]
  show ((List.replicate payloads.length PromiseState.pending).set
      (payloads.length - 1) _).get? i = _
  have hilt : i < payloads.length := by omega
  simp only [List.get?_eq_getElem?]
  rw [List.getElem?_set_ne (by omega : payloads.length - 1 ≠ i)]
  simp [List.getElem?_replicate, hilt]

/-- Witness for C10: with two rapid calls (`todo` then `done`) and a
failing network, the first (superseded) call's promise is still pending —
in particular it was not rejected. -/
theorem superseded_never_settles_witness :
    (0 + 1 < ([Status.todo, Status.done] : List Status).length)
    ∧ (debounceBurst [Status.todo, Status.done] false).promises.get? 0
        = some PromiseState.pending :=
  ⟨by decide,
    superseded_never_settles [Status.todo, Status.done] false 0 (by decide)⟩

end Planicorn
